import Mathlib

/-!
Verification of the mpbot marketplace integration core.

Shallow embedding conventions:
* Python `str` values are modelled as `List Char` (`Str`), so that the string
  operations used by the code (strip, upper, lower, slice) are plain list
  functions with good induction principles.  `str.strip()` is modelled as
  stripping ASCII whitespace, `str.upper()/lower()` as per-character ASCII
  case mapping.
* Python floats are modelled as exact rationals `ℚ`.  Divisions in the code
  are all guarded by positivity checks, so exact arithmetic is faithful.
* Python `round(x, n)` is modelled as round-half-to-even on exact rationals.
* Fallible operations return `Option`; the code under verification catches
  exceptions and returns `None`/defaults, which the embedding mirrors by
  being total.
* Database tables are modelled as in-memory lists of rows; the SQL
  `ON CONFLICT` upsert paths and the manual-fallback upsert paths of
  `db_functions.py` implement the same row-level semantics, which is what is
  embedded here.  For order saving the INSERT writes a column the `Order`
  model does not declare, so the statement raises instead of executing; the
  embedding models that execution step as `Except` with an explicit check of
  the written keys against the model's columns, and the caller's
  `try/except` + rollback as returning the unchanged table.
-/

abbrev Str := List Char

/-- Python `str.strip()` (whitespace at both ends). -/
def pyStrip (s : Str) : Str :=
  ((s.dropWhile Char.isWhitespace).reverse.dropWhile Char.isWhitespace).reverse

/-- Python `str.upper()` (per-character, ASCII range as in `Char.toUpper`). -/
def pyUpper (s : Str) : Str := s.map Char.toUpper

/-- Python `str.lower()` (per-character, ASCII range as in `Char.toLower`). -/
def pyLower (s : Str) : Str := s.map Char.toLower

/-- Embedding of `db_functions._safe_str` / adapter `_safe_str`:
`str(value).strip() if value is not None else default`, replace empty by the
default, then slice to `max_len`. -/
def safeStr (v : Option Str) (maxLen : ℕ) (dflt : Str) : Str :=
  let s := match v with
    | none => dflt
    | some x => pyStrip x
  let s := if s = [] then dflt else s
  s.take maxLen

/-- Round half to even (Python `round` on an exact value). -/
def roundHalfEven (q : ℚ) : ℤ :=
  let f := ⌊q⌋
  let r := q - f
  if r < 1/2 then f
  else if 1/2 < r then f + 1
  else if 2 ∣ f then f else f + 1

/-- Python `round(q, n)` on exact rationals. -/
def pyRound (n : ℕ) (q : ℚ) : ℚ :=
  (roundHalfEven (q * 10 ^ n) : ℚ) / 10 ^ n

/-- Column sum as the accumulating loop / `pandas.Series.sum` computes it. -/
def colSum {α : Type} (f : α → ℚ) (rows : List α) : ℚ :=
  rows.foldl (fun acc x => acc + f x) 0

theorem colSum_eq_sum_map {α : Type} (f : α → ℚ) (rows : List α) :
    colSum f rows = (rows.map f).sum := by
  suffices h : ∀ init : ℚ, rows.foldl (fun acc x => acc + f x) init = init + (rows.map f).sum by
    simpa [colSum] using h 0
  induction rows with
  | nil => intro init; simp
  | cons a l ih => intro init; simp [List.foldl_cons, ih, add_assoc]

namespace Sched

/-- Embedding of `scheduler_tasks._wb_price_to_rub` on a numeric input (the preceding
`_safe_float` coercion is the identity on numbers). -/
def wbPriceToRub (v : ℚ) : ℚ :=
  if v ≤ 0 then 0
  else if 50000 ≤ v then v / 100
  else v

end Sched

namespace DB

/-- Embedding of `db_functions._norm_marketplace`: `str(value or "").strip().lower()`,
then canonicalisation of the known aliases. -/
def normMarketplace (s : Str) : Str :=
  let t := pyLower (pyStrip (if s = [] then [] else s))
  if t = "wildberries".toList ∨ t = "wb".toList ∨ t = "w".toList then "wb".toList
  else if t = "ozon".toList ∨ t = "o3".toList ∨ t = "o".toList then "ozon".toList
  else t

/-- Embedding of `db_functions._norm_article`: `str(value or "").strip().upper()`
(note: no length truncation). -/
def normArticle (s : Str) : Str :=
  pyUpper (pyStrip (if s = [] then [] else s))

/-- Embedding of `_safe_str(order_id, max_len=128, default="")` as applied to order ids. -/
def sanitizeOid (s : Str) : Str := safeStr (some s) 128 []

/-- A persisted `Order` row (the columns the dedup key and payload use). -/
structure ORow where
  order_id : Str
  marketplace : Str
  user_id : ℤ
  amount : ℚ
  item_name : Str
deriving DecidableEq, Repr

/-- An incoming order dict handed to `bulk_save_orders` (fields via `.get`). -/
structure OIn where
  order_id : Str
  marketplace : Str
  user_id : Option ℤ
  amount : Option ℚ
  item_name : Option Str
deriving DecidableEq, Repr

/-- The composite dedup key `(order_id, marketplace, user_id)`. -/
abbrev OKey := Str × Str × ℤ

def keyOfRow (r : ORow) : OKey := (r.order_id, r.marketplace, r.user_id)

/-- Number of persisted rows carrying a given composite key. -/
def countKey (store : List ORow) (k : OKey) : ℕ :=
  (store.filter (fun r => keyOfRow r = k)).length

def ndStr : Str := "Н/Д".toList

/-- Column names of the persisted `orders` table as declared by the `Order`
model (database.py:89-114): it has a `created_at` column and no
`order_date`. -/
def orderColumns : List Str :=
  ["id".toList, "order_id".toList, "marketplace".toList, "amount".toList,
   "item_name".toList, "created_at".toList, "user_id".toList]

/-- Column keys written by the INSERT that `bulk_save_orders` builds
(db_functions.py:625-632; the manual fallback at 644-652 passes the same
keywords to the `Order` constructor). -/
def bulkSaveValueKeys : List Str :=
  ["order_id".toList, "marketplace".toList, "amount".toList,
   "item_name".toList, "user_id".toList, "order_date".toList]

/-- Execution of the conflict-safe INSERT: SQLAlchemy raises on a VALUES
key that is not a column of the target table ("Unconsumed column names"),
and the declarative constructor of the fallback branch likewise raises
`TypeError` on an unknown keyword; only when every written key is a real
column does the `ON CONFLICT DO NOTHING` insert run. -/
def execInsertOrIgnore (store : List ORow) (r : ORow) :
    Except Unit (List ORow) :=
  if bulkSaveValueKeys.all (fun c => orderColumns.contains c) then
    Except.ok
      (if store.any (fun x => keyOfRow x = keyOfRow r) then store
       else store ++ [r])
  else Except.error ()

/-- One iteration of the `bulk_save_orders` loop: sanitise, skip invalid
rows, then execute the INSERT (whose VALUES include `order_date`). -/
def saveOne (store : List ORow) (o : OIn) : Except Unit (List ORow) :=
  let oid := sanitizeOid o.order_id
  let mp := normMarketplace o.marketplace
  match o.user_id with
  | none => Except.ok store
  | some u =>
    if oid = [] ∨ mp = [] then Except.ok store
    else execInsertOrIgnore store
      ⟨oid, mp, u, o.amount.getD 0, safeStr o.item_name 255 ndStr⟩

/-- The row loop of `bulk_save_orders` inside its single transaction:
the first exception aborts the loop. -/
def bulkSaveLoop : List OIn → List ORow → Except Unit (List ORow)
  | [], store => Except.ok store
  | o :: rest, store =>
    match saveOne store o with
    | Except.ok s => bulkSaveLoop rest s
    | Except.error e => Except.error e

/-- Embedding of `db_functions.bulk_save_orders` over an in-memory orders
table: the whole loop runs in one transaction; an exception is caught,
logged and the transaction rolled back, which leaves the table exactly as
it was. -/
def bulkSaveOrders (store : List ORow) (rows : List OIn) : List ORow :=
  match bulkSaveLoop rows store with
  | Except.ok s => s
  | Except.error _ => store

/-- Embedding of `db_functions.is_order_new`: sanitise the id and marketplace, return
`false` for degenerate inputs, otherwise report whether no row matches the
conditions (the `user_id` condition is added only when a user id is given). -/
def isOrderNew (order_id marketplace : Str) (user_tg_id : Option ℤ)
    (store : List ORow) : Bool :=
  let oid := sanitizeOid order_id
  let mp := normMarketplace marketplace
  if oid = [] ∨ mp = [] then false
  else
    !(store.any (fun r =>
      r.order_id = oid && r.marketplace = mp &&
        (match user_tg_id with
         | none => true
         | some u => r.user_id = u)))

/-- A persisted `Product` row (one user's table; key `(marketplace, article)`). -/
structure PRow where
  marketplace : Str
  article : Str
  name : Str
  cost_price : ℚ
  tax_rate : ℚ
  extra_costs : ℚ
deriving DecidableEq, Repr

/-- An incoming product dict for `bulk_update_products` (fields via `.get`;
`none` models an absent key, numeric strings are out of scope). -/
structure PIn where
  marketplace : Str
  article : Str
  name : Option Str
  cost_price : Option ℚ
  extra_costs : Option ℚ
  tax_rate : Option ℚ
deriving DecidableEq, Repr

abbrev PKey := Str × Str

def keyOfProd (r : PRow) : PKey := (r.marketplace, r.article)

def lookupProd (store : List PRow) (k : PKey) : Option PRow :=
  store.find? (fun r => keyOfProd r = k)

/-- Default product name: the literal prefix of the Python f-string followed by the clean article. -/
def defaultName (a : Str) : Str := "Товар ".toList ++ a

/-- The incoming `tax_rate` after `_safe_float(· , 0.06)`, the `>1 → /100`
percent correction and the `<0 → 0` clamp. -/
def normTaxRate (t : Option ℚ) : ℚ :=
  let t0 := t.getD 0.06
  let t1 := if 1 < t0 then t0 / 100 else t0
  if t1 < 0 then 0 else t1

/-- Row-level semantics of one `bulk_update_products` iteration: skip rows
with a degenerate key; insert when absent; on conflict refresh `name` and
`tax_rate` unconditionally and keep the stored `cost_price`/`extra_costs`
when the incoming value is `0` (`COALESCE(NULLIF(excluded.x, 0), x)`; the
manual fallback branch checks `!= 0` identically). -/
def upsertProduct (store : List PRow) (p : PIn) : List PRow × ℕ :=
  let m := normMarketplace p.marketplace
  let a := normArticle p.article
  if m = [] ∨ a = [] then (store, 0)
  else
    let nm := safeStr p.name 255 (defaultName a)
    let cp := p.cost_price.getD 0
    let ex := p.extra_costs.getD 0
    let tr := normTaxRate p.tax_rate
    match lookupProd store (m, a) with
    | none => (store ++ [⟨m, a, nm, cp, tr, ex⟩], 1)
    | some _ =>
      (store.map (fun r =>
        if keyOfProd r = (m, a) then
          { r with
            name := nm
            cost_price := if cp ≠ 0 then cp else r.cost_price
            extra_costs := if ex ≠ 0 then ex else r.extra_costs
            tax_rate := tr }
        else r), 1)

/-- Embedding of `db_functions.bulk_update_products` (store plus the processed-row count). -/
def bulkUpdateProducts (store : List PRow) (rows : List PIn) : List PRow × ℕ :=
  rows.foldl (fun acc p =>
    let r := upsertProduct acc.1 p
    (r.1, acc.2 + r.2)) (store, 0)

/-- Embedding of `db_functions.update_product_cost`: single-product upsert of
`cost_price` (zero-guarded) and `name`; an insert takes the model defaults
`tax_rate = 0.06`, `extra_costs = 0`. -/
def updateProductCost (store : List PRow) (marketplace article : Str)
    (cost : ℚ) (name : Option Str) : List PRow :=
  let m := normMarketplace marketplace
  let a := normArticle article
  let nm := safeStr name 255 (defaultName a)
  match lookupProd store (m, a) with
  | none => store ++ [⟨m, a, nm, cost, 0.06, 0⟩]
  | some _ =>
    store.map (fun r =>
      if keyOfProd r = (m, a) then
        { r with
          name := nm
          cost_price := if cost ≠ 0 then cost else r.cost_price }
      else r)

end DB

/-- The `Retry-After` header of a transient response: absent, present but
unparsable as a float, or parsed. -/
inductive RetryAfter where
  | absent : RetryAfter
  | malformed : RetryAfter
  | parsed : ℚ → RetryAfter
deriving DecidableEq, Repr

/-- The observable outcome of one HTTP attempt inside `_make_request`:
a 200 with decodable body, a 200 with a JSON decode failure, a non-200
status (with its `Retry-After` header), a timeout/connection error, or any
other unexpected exception. -/
inductive WireOutcome where
  | okJson : WireOutcome
  | okBadJson : WireOutcome
  | status : ℕ → RetryAfter → WireOutcome
  | netErr : WireOutcome
  | exc : WireOutcome
deriving DecidableEq, Repr

/-- The retried status codes `(429, 500, 502, 503, 504)`. -/
def isTransientStatus (c : ℕ) : Bool :=
  c = 429 || c = 500 || c = 502 || c = 503 || c = 504

/-- Outcomes that make `_make_request` sleep and move to the next attempt. -/
def isTransientOutcome : WireOutcome → Bool
  | .status c _ => isTransientStatus c
  | .netErr => true
  | _ => false

/-- Backoff for timeouts/connection errors in both clients:
`min(base_sleep * 2**(attempt-1), 10.0)` with `base_sleep = 1`. -/
def netSleep (attempt : ℕ) : ℚ :=
  min ((2 : ℚ) ^ (attempt - 1)) 10

namespace WB

/-- Embedding of `wb_api.WildberriesAPI._norm_article`:
`_safe_str(value, max_len=128, default="").strip()` — no uppercasing. -/
def wbNormArticle (s : Str) : Str :=
  pyStrip (safeStr (some s) 128 [])

/-- Sleep chosen for a transient WB status at a given (1-based) attempt:
`max(1, Retry-After)` when the header parses, exponential backoff when it is
malformed, `min(30, 10*attempt)` when absent; always clipped at 60 s. -/
def wbTransientSleep (attempt : ℕ) (ra : RetryAfter) : ℚ :=
  let s := match ra with
    | .parsed q => max 1 q
    | .malformed => 1 * (2 : ℚ) ^ (attempt - 1)
    | .absent => min 30 (10 * attempt)
  min s 60

/-- The `WildberriesAPI._make_request` retry loop over a script assigning to
every (1-based) attempt number its wire outcome.  Returns the presence of a
decoded body plus the list of back-off sleeps performed, in order.  The
Python loop catches every exception, so the embedding is total: exhausting
the budget falls through to `return None`. -/
def wbLoop (script : ℕ → WireOutcome) (attempt remaining : ℕ) :
    Option Unit × List ℚ :=
  match remaining with
  | 0 => (none, [])
  | r + 1 =>
    match script attempt with
    | .okJson => (some (), [])
    | .okBadJson => (none, [])
    | .status c ra =>
      if c = 401 ∨ c = 403 then (none, [])
      else if isTransientStatus c then
        let rest := wbLoop script (attempt + 1) r
        (rest.1, wbTransientSleep attempt ra :: rest.2)
      else (none, [])
    | .netErr =>
      let rest := wbLoop script (attempt + 1) r
      (rest.1, netSleep attempt :: rest.2)
    | .exc => (none, [])

/-- Embedding of `WildberriesAPI._make_request` with its retry budget (`max_retries`,
constructor default 3). -/
def wbMakeRequest (script : ℕ → WireOutcome) (maxRetries : ℕ) :
    Option Unit × List ℚ :=
  wbLoop script 1 maxRetries

/-- One response of `/content/v2/get/cards/list` as `get_cards_list` reads
it: either an unusable reply (`None` from `_make_request`, or not a dict),
or a page with its card list and the optional `(nmID, updatedAt)` cursor
(`none` when the cursor dict or either of its two fields is missing). -/
inductive CardsResp where
  | bad : CardsResp
  | page : List ℕ → Option (ℤ × Str) → CardsResp
deriving DecidableEq, Repr

/-- The `get_cards_list` pagination loop over a script assigning responses
to successive request indices.  `remaining` is the number of pages the
`max_pages = 200` guard still allows; returns the collected cards and the
number of requests actually issued. -/
def cardsLoop (script : ℕ → CardsResp) (i remaining : ℕ) :
    List ℕ × ℕ :=
  match remaining with
  | 0 => ([], 0)
  | r + 1 =>
    match script i with
    | .bad => ([], 1)
    | .page cards cur =>
      if cards = [] then ([], 1)
      else
        match cur with
        | none => (cards, 1)
        | some _ =>
          let rest := cardsLoop script (i + 1) r
          (cards ++ rest.1, rest.2 + 1)

/-- Embedding of `WildberriesAPI.get_cards_list` with its `max_pages = 200` cap. -/
def getCardsList (script : ℕ → CardsResp) : List ℕ × ℕ :=
  cardsLoop script 0 200

end WB

namespace Ozon

/-- Embedding of `ozon_api.OzonAPI._norm_article`:
`_safe_str(value, max_len=128, default="").upper()`. -/
def ozonNormArticle (s : Str) : Str :=
  pyUpper (safeStr (some s) 128 [])

/-- Sleep chosen for a transient Ozon status: `max(1, Retry-After)` when the
header parses, else `base_sleep * 2**(attempt-1)`; clipped at 20 s. -/
def ozonTransientSleep (attempt : ℕ) (ra : RetryAfter) : ℚ :=
  let s := match ra with
    | .parsed q => max 1 q
    | .malformed => 1 * (2 : ℚ) ^ (attempt - 1)
    | .absent => 1 * (2 : ℚ) ^ (attempt - 1)
  min s 20

/-- The `OzonAPI._make_request` retry loop (same shape as the WB one, with
the Ozon back-off constants). -/
def ozonLoop (script : ℕ → WireOutcome) (attempt remaining : ℕ) :
    Option Unit × List ℚ :=
  match remaining with
  | 0 => (none, [])
  | r + 1 =>
    match script attempt with
    | .okJson => (some (), [])
    | .okBadJson => (none, [])
    | .status c ra =>
      if c = 401 ∨ c = 403 then (none, [])
      else if isTransientStatus c then
        let rest := ozonLoop script (attempt + 1) r
        (rest.1, ozonTransientSleep attempt ra :: rest.2)
      else (none, [])
    | .netErr =>
      let rest := ozonLoop script (attempt + 1) r
      (rest.1, netSleep attempt :: rest.2)
    | .exc => (none, [])

/-- Embedding of `OzonAPI._make_request` with its retry budget (default 3). -/
def ozonMakeRequest (script : ℕ → WireOutcome) (maxRetries : ℕ) :
    Option Unit × List ℚ :=
  ozonLoop script 1 maxRetries

/-- One `/v3/product/list` response as `get_stock_info` reads it: `bad` for
a falsy `_make_request` result, otherwise the `result.items` list (each item
carrying an optional usable `product_id`) and the `result.last_id` token. -/
inductive ListResp where
  | bad : ListResp
  | page : List (Option ℤ) → Str → ListResp
deriving DecidableEq, Repr

/-- The product-id collection loop of `OzonAPI.get_stock_info` over a finite
response script (the script ending models the upstream returning nothing
further).  Stops on a bad response, an empty `last_id`, or a page shorter
than the requested `limit = 1000`; returns the collected ids and the number
of requests issued. -/
def stockIdLoop : List ListResp → List ℤ × ℕ
  | [] => ([], 1)
  | .bad :: _ => ([], 1)
  | .page items lastId :: rest =>
    let ids := items.filterMap id
    if lastId = [] ∨ items.length < 1000 then (ids, 1)
    else
      let r := stockIdLoop rest
      (ids ++ r.1, r.2 + 1)

end Ozon

namespace Reports

/-- Embedding of `reports._norm_article`:
`_safe_str(value, default="Н/Д", max_len=128).strip().upper()`. -/
def repNormArticle (s : Str) : Str :=
  pyUpper (pyStrip (safeStr (some s) 128 DB.ndStr))

/-- The three per-article figures stored in a `Product` row and read by the
report engine (`cost_price`, `tax_rate`, `extra_costs`). -/
structure StoredCost where
  cost : ℚ
  tax : ℚ
  extra : ℚ
deriving DecidableEq, Repr

/-- Embedding of `reports.get_user_cost_prices`: the user's products as a dict keyed by
normalized article, with `cost = row.cost_price or 0.0`,
`tax = row.tax_rate or 0.06` (a stored `0` becomes the default `0.06`),
`extra = row.extra_costs or 0.0`.  The store is keyed by the (already
normalized) persisted article. -/
def costsDict (store : Str → Option StoredCost) (a : Str) : Option StoredCost :=
  (store a).map (fun p =>
    ⟨(if p.cost = 0 then 0 else p.cost),
     (if p.tax = 0 then 0.06 else p.tax),
     (if p.extra = 0 then 0 else p.extra)⟩)

/-- One unified sale row of the daily report (`price` already numeric,
`article` the raw extracted article). -/
structure SaleRec where
  article : Str
  price : ℚ
deriving DecidableEq, Repr

/-- The dict key used by the report loop:
`_norm_article(row.get("article") or "Н/Д")`. -/
def recKey (r : SaleRec) : Str :=
  repNormArticle (if r.article = [] then DB.ndStr else r.article)

/-- Per-record effective figures of the report loop: absent products default
to `{cost: 0, tax: 0.06, extra: 0}`; present values go through
`float(x or default)` once more (`cost or 0.0`, `tax or 0.06`,
`extra or 0.0`). -/
def effCost (store : Str → Option StoredCost) (key : Str) : StoredCost :=
  match costsDict store key with
  | none => ⟨0, 0.06, 0⟩
  | some p =>
    ⟨(if p.cost = 0 then 0 else p.cost),
     (if p.tax = 0 then 0.06 else p.tax),
     (if p.extra = 0 then 0 else p.extra)⟩

/-- Accumulator state of the daily-report loop. -/
structure DailyAcc where
  revenue : ℚ
  cost : ℚ
  tax : ℚ
  extra : ℚ
  items : ℕ
deriving DecidableEq, Repr

/-- One iteration of the `generate_daily_report_text` accumulation loop. -/
def dailyStep (store : Str → Option StoredCost) (acc : DailyAcc)
    (r : SaleRec) : DailyAcc :=
  let p := effCost store (recKey r)
  ⟨acc.revenue + r.price, acc.cost + p.cost, acc.tax + r.price * p.tax,
   acc.extra + p.extra, acc.items + 1⟩

/-- The final figures of the daily report. -/
structure DailyAgg where
  revenue : ℚ
  cost : ℚ
  tax : ℚ
  extra : ℚ
  items : ℕ
  net : ℚ
  roi : ℚ
deriving DecidableEq, Repr

/-- The aggregation core of `reports.generate_daily_report_text`: the
accumulation loop, then `net_profit = revenue - cost - tax - extra` and
`roi = net_profit / cost * 100 if cost > 0 else 0`. -/
def dailyAggregate (recs : List SaleRec)
    (store : Str → Option StoredCost) : DailyAgg :=
  let t := recs.foldl (dailyStep store) ⟨0, 0, 0, 0, 0⟩
  let net := t.revenue - t.cost - t.tax - t.extra
  let roi := if t.cost > 0 then net / t.cost * 100 else 0
  ⟨t.revenue, t.cost, t.tax, t.extra, t.items, net, roi⟩

end Reports

namespace UnitEcon

/-- The `fees` dict of `unit_economics.calculate_profit` (values read with
`.get(key, 0)`; `none` models an absent key). -/
structure Fees where
  commission_percent : Option ℚ
  logistics : Option ℚ
  storage : Option ℚ
  ads_share : Option ℚ
deriving DecidableEq, Repr

/-- The dict returned by `calculate_profit`. -/
structure UnitResult where
  net_profit : ℚ
  roi : ℚ
  margin : ℚ
  tax : ℚ
  marketplace_fees : ℚ
  extra_costs : ℚ
deriving DecidableEq, Repr

/-- Embedding of `unit_economics.calculate_profit` on numeric inputs:
`tax = price * tax_rate`; marketplace fees from the `fees` dict; expenses
sum everything; `roi` and `margin` are guarded; results are rounded as in
the returned dict. -/
def calculateProfit (price cost_price tax_rate : ℚ) (fees : Fees)
    (extra_costs : ℚ) : UnitResult :=
  let tax_amount := price * tax_rate
  let m_commission := price * ((fees.commission_percent.getD 0) / 100)
  let m_logistics := fees.logistics.getD 0
  let m_storage := fees.storage.getD 0
  let m_ads := fees.ads_share.getD 0
  let total_expenses := cost_price + tax_amount + m_commission + m_logistics
    + m_storage + m_ads + extra_costs
  let net_profit := price - total_expenses
  let roi := if cost_price > 0 then net_profit / cost_price * 100 else 0
  let margin := if price > 0 then net_profit / price * 100 else 0
  ⟨pyRound 2 net_profit, pyRound 1 roi, pyRound 1 margin, pyRound 2 tax_amount,
   pyRound 2 (m_commission + m_logistics + m_storage + m_ads),
   pyRound 2 extra_costs⟩

end UnitEcon

namespace FinProc

/-- One row of the WB detailed (weekly realisation) report as
`process_wb_weekly_json` reads it: `sa_name`, `doc_type_name`,
`ppvz_for_pay`, `delivery_rub`, `retail_amount` and the optional `penalty`
cell (`none` models an absent value, summed as 0 by pandas). -/
structure WbFinRow where
  sa_name : Str
  doc_type_name : Str
  ppvz_for_pay : ℚ
  delivery_rub : ℚ
  retail_amount : ℚ
  penalty : Option ℚ
deriving DecidableEq, Repr

/-- The `doc_type_name` value of a sale row. -/
def saleDoc : Str := "Продажа".toList

/-- The `doc_type_name` value of a return row. -/
def returnDoc : Str := "Возврат".toList

/-- The raw aggregates computed by the body of `process_wb_weekly_json`
before the final rounding (`cost_map` is the user's `{article: cost_price}`
dict; `rate` the user's tax rate). -/
structure WbRawAgg where
  sales_count : ℕ
  returns_count : ℕ
  revenue : ℚ
  delivery : ℚ
  penalties : ℚ
  tax : ℚ
  cost : ℚ
  net : ℚ
  margin : ℚ
deriving DecidableEq, Repr

/-- The aggregation body of `FinancialProcessor.process_wb_weekly_json`:
column sums over the DataFrame, cost restricted to sale rows via the
`cost_map`-mapped `cost_price` column with `fillna(0)`, tax on the summed
gross `retail_amount`, and the guarded margin. -/
def wbWeeklyAgg (rows : List WbFinRow) (costMap : Str → Option ℚ)
    (rate : ℚ) : WbRawAgg :=
  let revenue := colSum (fun r => r.ppvz_for_pay) rows
  let delivery := colSum (fun r => r.delivery_rub) rows
  let penalties := colSum (fun r => r.penalty.getD 0) rows
  let tax := colSum (fun r => r.retail_amount) rows * rate
  let cost := colSum (fun r => (costMap r.sa_name).getD 0)
    (rows.filter (fun r => r.doc_type_name = saleDoc))
  let net := revenue - cost - tax - penalties
  let margin := if revenue > 0 then net / revenue * 100 else 0
  ⟨(rows.filter (fun r => r.doc_type_name = saleDoc)).length,
   (rows.filter (fun r => r.doc_type_name = returnDoc)).length,
   revenue, delivery, penalties, tax, cost, net, margin⟩

/-- The dict `process_wb_weekly_json` returns (values rounded to 2 dp). -/
structure WbFinResult where
  sales_count : ℕ
  returns_count : ℕ
  revenue : ℚ
  delivery : ℚ
  tax : ℚ
  cost : ℚ
  profit : ℚ
  margin : ℚ
deriving DecidableEq, Repr

/-- Embedding of `FinancialProcessor.process_wb_weekly_json`: `None` on an empty input
(`if not raw_data`), otherwise the rounded aggregate dict. -/
def processWbWeekly (rows : List WbFinRow) (costMap : Str → Option ℚ)
    (rate : ℚ) : Option WbFinResult :=
  if rows = [] then none
  else
    let a := wbWeeklyAgg rows costMap rate
    some ⟨a.sales_count, a.returns_count, pyRound 2 a.revenue,
      pyRound 2 a.delivery, pyRound 2 a.tax, pyRound 2 a.cost,
      pyRound 2 a.net, pyRound 2 a.margin⟩

end FinProc

/-- C4: for every non-negative numeric source price value `v`, the WB price
normalization divides by 100 exactly when `v` is at or above the fixed
threshold 50000 and otherwise returns `v` unchanged; in particular 49999
stays 49999 and 129900 becomes 1299.00.  (The hypothesis `0 ≤ v` reflects
that prices are non-negative; the function additionally clamps negative
inputs to 0.) -/
theorem c4_wb_price_normalization (v : ℚ) (h : 0 ≤ v) :
    Sched.wbPriceToRub v = (if 50000 ≤ v then v / 100 else v) ∧
    Sched.wbPriceToRub 49999 = 49999 ∧
    Sched.wbPriceToRub 129900 = 1299 := by
  refine ⟨?_, by norm_num [Sched.wbPriceToRub], by norm_num [Sched.wbPriceToRub]⟩
  unfold Sched.wbPriceToRub
  rcases eq_or_lt_of_le h with h0 | h0
  · rw [if_pos (le_of_eq h0.symm)]
    rcases em ((50000 : ℚ) ≤ v) with h5 | h5
    · exact absurd (h0 ▸ h5) (by norm_num)
    · rw [if_neg h5, ← h0]
  · rw [if_neg (not_le.mpr h0)]

theorem c4_wb_price_normalization_witness :
    (0 : ℚ) ≤ 3 ∧
      (Sched.wbPriceToRub 3 = (if (50000 : ℚ) ≤ 3 then 3 / 100 else 3) ∧
       Sched.wbPriceToRub 49999 = 49999 ∧
       Sched.wbPriceToRub 129900 = 1299) :=
  ⟨by norm_num, c4_wb_price_normalization 3 (by norm_num)⟩

theorem any_key_iff (store : List DB.ORow) (k : DB.OKey) :
    store.any (fun r => DB.keyOfRow r = k) = true ↔ DB.countKey store k ≠ 0 := by
  simp [DB.countKey, List.any_eq_true, List.length_eq_zero,
    List.filter_eq_nil_iff]

theorem countKey_eq_zero_iff (store : List DB.ORow) (k : DB.OKey) :
    DB.countKey store k = 0 ↔
      store.any (fun r => DB.keyOfRow r = k) = false := by
  constructor
  · intro h
    rcases hb : store.any (fun r => DB.keyOfRow r = k) with _ | _
    · rfl
    · exact absurd ((any_key_iff _ _).mp hb) (by simp [h])
  · intro h
    by_contra hne
    rw [(any_key_iff _ _).mpr hne] at h
    cases h

/-- Concrete valid order row for the C2 failing input. -/
def c2row : DB.OIn :=
  ⟨"A1".toList, "wb".toList, some 1, some 100, some "X".toList⟩

/-- The composite key of `c2row` after sanitisation. -/
def c2key : DB.OKey := ("A1".toList, "wb".toList, 1)

/-- The INSERT built by `bulk_save_orders` can never execute: its VALUES
include the `order_date` key, which is not a column of the `Order` model. -/
theorem execInsertOrIgnore_error (store : List DB.ORow) (r : DB.ORow) :
    DB.execInsertOrIgnore store r = Except.error () := by
  unfold DB.execInsertOrIgnore
  rw [if_neg (by decide : ¬ ((DB.bulkSaveValueKeys.all
    (fun c => DB.orderColumns.contains c)) = true))]

/-- A `bulk_save_orders` iteration that returns without an exception has
skipped its row: only degenerate rows avoid the failing INSERT. -/
theorem saveOne_ok_eq (store : List DB.ORow) (o : DB.OIn)
    (s : List DB.ORow) (h : DB.saveOne store o = Except.ok s) : s = store := by
  cases hu : o.user_id with
  | none =>
    simp only [DB.saveOne, hu] at h
    exact ((Except.ok.injEq _ _).mp h).symm
  | some u =>
    simp only [DB.saveOne, hu] at h
    by_cases hc : DB.sanitizeOid o.order_id = [] ∨
        DB.normMarketplace o.marketplace = []
    · rw [if_pos hc] at h
      exact ((Except.ok.injEq _ _).mp h).symm
    · rw [if_neg hc, execInsertOrIgnore_error] at h
      exact Except.noConfusion h

/-- `bulk_save_orders` leaves the orders table exactly as it found it: the
first valid row raises on the unknown `order_date` column and the whole
transaction is rolled back, while invalid rows are skipped. -/
theorem bulkSaveOrders_unchanged (rows : List DB.OIn) :
    ∀ store : List DB.ORow, DB.bulkSaveOrders store rows = store := by
  induction rows with
  | nil => intro store; rfl
  | cons o rest ih =>
    intro store
    unfold DB.bulkSaveOrders DB.bulkSaveLoop
    cases hs : DB.saveOne store o with
    | error e => rfl
    | ok s =>
      have hss := saveOne_ok_eq store o s hs
      subst hss
      have := ih s
      unfold DB.bulkSaveOrders at this
      exact this

/-- C2 (code bug): the claim describes the documented intent — a
conflict-safe batch insert keyed by `(order_id, marketplace, user_id)` —
but the INSERT writes an `order_date` column that the `Order` model does
not have (it only has `created_at`), so on every valid row SQLAlchemy
raises, the `except` branch rolls back the transaction, and
`bulk_save_orders` never persists anything: after `bulkSaveOrders([O, O])`
on an empty table there are zero rows with the key, not one. -/
theorem c2_bulk_save_orders_code_bug :
    ("order_date".toList ∈ DB.bulkSaveValueKeys ∧
     "order_date".toList ∉ DB.orderColumns) ∧
    DB.saveOne [] c2row = Except.error () ∧
    (∀ (store : List DB.ORow) (rows : List DB.OIn),
      DB.bulkSaveOrders store rows = store) ∧
    DB.bulkSaveOrders [] [c2row, c2row] = [] ∧
    DB.countKey (DB.bulkSaveOrders [] [c2row, c2row]) c2key = 0 ∧
    ¬ (DB.countKey (DB.bulkSaveOrders [] [c2row, c2row]) c2key = 1) := by
  have hunch : ∀ (store : List DB.ORow) (rows : List DB.OIn),
      DB.bulkSaveOrders store rows = store :=
    fun store rows => bulkSaveOrders_unchanged rows store
  have hnil : DB.bulkSaveOrders [] [c2row, c2row] = [] := hunch [] _
  refine ⟨⟨by decide, by decide⟩, rfl, hunch, hnil, ?_, ?_⟩
  · rw [hnil]; rfl
  · rw [hnil]; decide

/-- C3 counterexample: on the empty order id the code returns `false`
("not new") although no persisted row carries the composite key
`("", "wb", 1)` in the empty store — so `is_order_new` is not literally
"true iff no row with that key exists" for every order id string. -/
theorem c3_is_order_new_counterexample :
    DB.isOrderNew [] "wb".toList (some 1) [] = false ∧
    DB.countKey []
      (DB.sanitizeOid [], DB.normMarketplace "wb".toList, 1) = 0 := by
  exact ⟨by decide, rfl⟩

/-- C3 (amended): for every order id whose sanitized form (trimmed, at most
128 characters) is non-empty and every marketplace whose normalized form is
non-empty, `is_order_new(order_id, marketplace, user_id)` returns true iff
no persisted row carries the sanitized composite key; for degenerate
identifiers it conservatively returns `false`. -/
theorem c3_is_order_new_amended (order_id mp : Str) (u : ℤ)
    (store : List DB.ORow)
    (h1 : DB.sanitizeOid order_id ≠ [])
    (h2 : DB.normMarketplace mp ≠ []) :
    (DB.isOrderNew order_id mp (some u) store = true ↔
      DB.countKey store
        (DB.sanitizeOid order_id, DB.normMarketplace mp, u) = 0) := by
  have hcond : ¬ (DB.sanitizeOid order_id = [] ∨ DB.normMarketplace mp = []) := by
    rintro (h | h)
    · exact h1 h
    · exact h2 h
  have hpred : (fun r : DB.ORow =>
      (r.order_id = DB.sanitizeOid order_id &&
        r.marketplace = DB.normMarketplace mp && decide (r.user_id = u))) =
      (fun r : DB.ORow => decide (DB.keyOfRow r =
        (DB.sanitizeOid order_id, DB.normMarketplace mp, u))) := by
    funext r
    simp [DB.keyOfRow, Prod.ext_iff, Bool.and_assoc]
  simp only [DB.isOrderNew, if_neg hcond, hpred]
  rw [countKey_eq_zero_iff]
  simp

theorem c3_is_order_new_amended_witness :
    (DB.sanitizeOid "A1".toList ≠ [] ∧ DB.normMarketplace "wb".toList ≠ []) ∧
    (DB.isOrderNew "A1".toList "wb".toList (some 1) [] = true ↔
      DB.countKey []
        (DB.sanitizeOid "A1".toList, DB.normMarketplace "wb".toList, 1) = 0) :=
  ⟨⟨by decide, by decide⟩,
   c3_is_order_new_amended "A1".toList "wb".toList 1 [] (by decide) (by decide)⟩

theorem lookupProd_map_update (store : List DB.PRow) (k : DB.PKey)
    (f : DB.PRow → DB.PRow)
    (hf : ∀ r, DB.keyOfProd (f r) = DB.keyOfProd r) :
    DB.lookupProd
        (store.map (fun r => if DB.keyOfProd r = k then f r else r)) k =
      (DB.lookupProd store k).map f := by
  induction store with
  | nil => rfl
  | cons x l ih =>
    by_cases h : DB.keyOfProd x = k
    · simp only [List.map_cons, if_pos h, DB.lookupProd]
      rw [List.find?_cons_of_pos _ (by simp [hf, h]),
        List.find?_cons_of_pos _ (by simp [h])]
      rfl
    · simp only [List.map_cons, if_neg h, DB.lookupProd] at *
      rw [List.find?_cons_of_neg _ (by simpa using h),
        List.find?_cons_of_neg _ (by simpa using h), ih]

/-- One `bulk_update_products` iteration on a key that is already stored:
the row is rewritten with the incoming name and (normalized) tax rate while
`cost_price`/`extra_costs` keep the stored value exactly when the incoming
value is zero. -/
theorem lookupProd_upsert_existing (store : List DB.PRow) (p : DB.PIn)
    (m a : Str) (old : DB.PRow)
    (hm : DB.normMarketplace p.marketplace = m) (hm0 : m ≠ [])
    (ha : DB.normArticle p.article = a) (ha0 : a ≠ [])
    (hold : DB.lookupProd store (m, a) = some old) :
    DB.lookupProd (DB.upsertProduct store p).1 (m, a) = some
      { old with
        name := safeStr p.name 255 (DB.defaultName a)
        cost_price := if p.cost_price.getD 0 ≠ 0 then p.cost_price.getD 0
          else old.cost_price
        extra_costs := if p.extra_costs.getD 0 ≠ 0 then p.extra_costs.getD 0
          else old.extra_costs
        tax_rate := DB.normTaxRate p.tax_rate } := by
  have hcond : ¬ (m = [] ∨ a = []) := by
    rintro (h | h)
    · exact hm0 h
    · exact ha0 h
  simp only [DB.upsertProduct, hm, ha, if_neg hcond, hold]
  rw [lookupProd_map_update store (m, a)
    (fun r =>
      { r with
        name := safeStr p.name 255 (DB.defaultName a)
        cost_price := if p.cost_price.getD 0 ≠ 0 then p.cost_price.getD 0
          else r.cost_price
        extra_costs := if p.extra_costs.getD 0 ≠ 0 then p.extra_costs.getD 0
          else r.extra_costs
        tax_rate := DB.normTaxRate p.tax_rate })
    (fun r => rfl), hold]
  rfl

/-- One `update_product_cost` call on a key that is already stored: name refreshed,
`cost_price` replaced only by a non-zero incoming value, `tax_rate` and
`extra_costs` untouched. -/
theorem lookupProd_updateCost_existing (store : List DB.PRow)
    (mp art : Str) (cost : ℚ) (nm : Option Str) (m a : Str) (old : DB.PRow)
    (hm : DB.normMarketplace mp = m) (ha : DB.normArticle art = a)
    (hold : DB.lookupProd store (m, a) = some old) :
    DB.lookupProd (DB.updateProductCost store mp art cost nm) (m, a) = some
      { old with
        name := safeStr nm 255 (DB.defaultName a)
        cost_price := if cost ≠ 0 then cost else old.cost_price } := by
  simp only [DB.updateProductCost, hm, ha, hold]
  rw [lookupProd_map_update store (m, a)
    (fun r =>
      { r with
        name := safeStr nm 255 (DB.defaultName a)
        cost_price := if cost ≠ 0 then cost else r.cost_price })
    (fun r => rfl), hold]
  rfl

/-- C1: zero-guard upsert.  For a stored product and an incoming sync row on
the same `(marketplace, article)` key, `bulk_update_products` keeps a stored
`cost_price`/`extra_costs` when the incoming value is 0, replaces the stored
`cost_price` by a non-zero incoming value, and always refreshes `name` and
`tax_rate` from the incoming row; `update_product_cost` implements the same
zero-guard for `cost_price` and name refresh. -/
theorem c1_zero_guard_upsert (store : List DB.PRow) (rowZ rowN : DB.PIn)
    (m a : Str) (old : DB.PRow) (c : ℚ) (nm : Option Str)
    (hmZ : DB.normMarketplace rowZ.marketplace = m)
    (haZ : DB.normArticle rowZ.article = a)
    (hmN : DB.normMarketplace rowN.marketplace = m)
    (haN : DB.normArticle rowN.article = a)
    (hm0 : m ≠ []) (ha0 : a ≠ [])
    (hold : DB.lookupProd store (m, a) = some old)
    (hZc : rowZ.cost_price = some 0) (hZe : rowZ.extra_costs = some 0)
    (hNc : rowN.cost_price = some c) (hc : c ≠ 0) :
    DB.lookupProd (DB.bulkUpdateProducts store [rowZ]).1 (m, a) = some
      { old with
        name := safeStr rowZ.name 255 (DB.defaultName a)
        cost_price := old.cost_price
        extra_costs := old.extra_costs
        tax_rate := DB.normTaxRate rowZ.tax_rate } ∧
    DB.lookupProd (DB.bulkUpdateProducts store [rowN]).1 (m, a) = some
      { old with
        name := safeStr rowN.name 255 (DB.defaultName a)
        cost_price := c
        extra_costs := if rowN.extra_costs.getD 0 ≠ 0 then rowN.extra_costs.getD 0
          else old.extra_costs
        tax_rate := DB.normTaxRate rowN.tax_rate } ∧
    DB.lookupProd (DB.updateProductCost store rowZ.marketplace rowZ.article 0 nm)
        (m, a) = some
      { old with
        name := safeStr nm 255 (DB.defaultName a)
        cost_price := old.cost_price } ∧
    DB.lookupProd (DB.updateProductCost store rowZ.marketplace rowZ.article c nm)
        (m, a) = some
      { old with
        name := safeStr nm 255 (DB.defaultName a)
        cost_price := c } := by
  have hbulk : ∀ p : DB.PIn,
      (DB.bulkUpdateProducts store [p]).1 = (DB.upsertProduct store p).1 := by
    intro p
    rfl
  refine ⟨?_, ?_, ?_, ?_⟩
  · rw [hbulk, lookupProd_upsert_existing store rowZ m a old hmZ hm0 haZ ha0 hold]
    simp [hZc, hZe]
  · rw [hbulk, lookupProd_upsert_existing store rowN m a old hmN hm0 haN ha0 hold]
    simp [hNc, hc]
  · rw [lookupProd_updateCost_existing store rowZ.marketplace rowZ.article 0 nm
      m a old hmZ haZ hold]
    simp
  · rw [lookupProd_updateCost_existing store rowZ.marketplace rowZ.article c nm
      m a old hmZ haZ hold]
    simp [hc]

/-- Concrete inputs for the C1 witness: a stored product with non-zero cost
100 and extras 7, an incoming zero-cost row and an incoming row with cost
150. -/
def c1old : DB.PRow :=
  ⟨"wb".toList, "A1".toList, "Old".toList, 100, 0.06, 7⟩

def c1rowZ : DB.PIn :=
  ⟨"wb".toList, "A1".toList, some "New".toList, some 0, some 0, some 0.2⟩

def c1rowN : DB.PIn :=
  ⟨"wb".toList, "A1".toList, some "New".toList, some 150, some 0, some 0.2⟩

theorem c1_zero_guard_upsert_witness :
    (DB.normMarketplace c1rowZ.marketplace = "wb".toList ∧
     DB.normArticle c1rowZ.article = "A1".toList ∧
     DB.normMarketplace c1rowN.marketplace = "wb".toList ∧
     DB.normArticle c1rowN.article = "A1".toList ∧
     ("wb".toList : Str) ≠ [] ∧ ("A1".toList : Str) ≠ [] ∧
     DB.lookupProd [c1old] ("wb".toList, "A1".toList) = some c1old ∧
     c1rowZ.cost_price = some 0 ∧ c1rowZ.extra_costs = some 0 ∧
     c1rowN.cost_price = some 150 ∧ (150 : ℚ) ≠ 0) ∧
    (DB.lookupProd (DB.bulkUpdateProducts [c1old] [c1rowZ]).1
        ("wb".toList, "A1".toList) = some
      { c1old with
        name := safeStr c1rowZ.name 255 (DB.defaultName "A1".toList)
        cost_price := c1old.cost_price
        extra_costs := c1old.extra_costs
        tax_rate := DB.normTaxRate c1rowZ.tax_rate } ∧
     DB.lookupProd (DB.bulkUpdateProducts [c1old] [c1rowN]).1
        ("wb".toList, "A1".toList) = some
      { c1old with
        name := safeStr c1rowN.name 255 (DB.defaultName "A1".toList)
        cost_price := 150
        extra_costs := if c1rowN.extra_costs.getD 0 ≠ 0
          then c1rowN.extra_costs.getD 0 else c1old.extra_costs
        tax_rate := DB.normTaxRate c1rowN.tax_rate } ∧
     DB.lookupProd (DB.updateProductCost [c1old] c1rowZ.marketplace
        c1rowZ.article 0 (some "New".toList)) ("wb".toList, "A1".toList) = some
      { c1old with
        name := safeStr (some "New".toList) 255 (DB.defaultName "A1".toList)
        cost_price := c1old.cost_price } ∧
     DB.lookupProd (DB.updateProductCost [c1old] c1rowZ.marketplace
        c1rowZ.article 150 (some "New".toList)) ("wb".toList, "A1".toList) = some
      { c1old with
        name := safeStr (some "New".toList) 255 (DB.defaultName "A1".toList)
        cost_price := 150 }) :=
  ⟨⟨by decide, by decide, by decide, by decide, by decide, by decide,
     rfl, rfl, rfl, rfl, by norm_num⟩,
   c1_zero_guard_upsert [c1old] c1rowZ c1rowN "wb".toList "A1".toList c1old
     150 (some "New".toList) (by decide) (by decide) (by decide) (by decide)
     (by decide) (by decide) rfl rfl rfl rfl (by norm_num)⟩

theorem wbTransientSleep_le (a : ℕ) (ra : RetryAfter) :
    WB.wbTransientSleep a ra ≤ 60 :=
  min_le_right _ _

theorem ozonTransientSleep_le (a : ℕ) (ra : RetryAfter) :
    Ozon.ozonTransientSleep a ra ≤ 20 :=
  min_le_right _ _

theorem netSleep_le (a : ℕ) : netSleep a ≤ 10 :=
  min_le_right _ _

theorem transient_not_auth (c : ℕ) (h : isTransientStatus c = true) :
    ¬ (c = 401 ∨ c = 403) := by
  simp only [isTransientStatus, Bool.or_eq_true, decide_eq_true_eq] at h
  omega

/-- Under an all-transient script the WB retry loop performs one capped
sleep per remaining attempt and ends with no data. -/
theorem wbLoop_all_transient (s : ℕ → WireOutcome)
    (h : ∀ i, isTransientOutcome (s i) = true) :
    ∀ r a, (WB.wbLoop s a r).1 = none ∧ (WB.wbLoop s a r).2.length = r ∧
      ∀ q ∈ (WB.wbLoop s a r).2, q ≤ 60 := by
  intro r
  induction r with
  | zero => intro a; exact ⟨rfl, rfl, by intro q hq; cases hq⟩
  | succ n ih =>
    intro a
    have ha := h a
    cases hs : s a with
    | okJson => rw [hs] at ha; cases ha
    | okBadJson => rw [hs] at ha; cases ha
    | exc => rw [hs] at ha; cases ha
    | netErr =>
      obtain ⟨ih1, ih2, ih3⟩ := ih (a + 1)
      simp only [WB.wbLoop, hs]
      refine ⟨ih1, by simp [ih2], ?_⟩
      intro q hq
      rcases List.mem_cons.mp hq with hq | hq
      · exact hq ▸ le_trans (netSleep_le a) (by norm_num)
      · exact ih3 q hq
    | status c ra =>
      rw [hs] at ha
      have htr : isTransientStatus c = true := ha
      obtain ⟨ih1, ih2, ih3⟩ := ih (a + 1)
      simp only [WB.wbLoop, hs, if_neg (transient_not_auth c htr), if_pos htr]
      refine ⟨ih1, by simp [ih2], ?_⟩
      intro q hq
      rcases List.mem_cons.mp hq with hq | hq
      · exact hq ▸ wbTransientSleep_le a ra
      · exact ih3 q hq

/-- Under an all-transient script the Ozon retry loop performs one capped
sleep per remaining attempt and ends with no data. -/
theorem ozonLoop_all_transient (s : ℕ → WireOutcome)
    (h : ∀ i, isTransientOutcome (s i) = true) :
    ∀ r a, (Ozon.ozonLoop s a r).1 = none ∧
      (Ozon.ozonLoop s a r).2.length = r ∧
      ∀ q ∈ (Ozon.ozonLoop s a r).2, q ≤ 20 := by
  intro r
  induction r with
  | zero => intro a; exact ⟨rfl, rfl, by intro q hq; cases hq⟩
  | succ n ih =>
    intro a
    have ha := h a
    cases hs : s a with
    | okJson => rw [hs] at ha; cases ha
    | okBadJson => rw [hs] at ha; cases ha
    | exc => rw [hs] at ha; cases ha
    | netErr =>
      obtain ⟨ih1, ih2, ih3⟩ := ih (a + 1)
      simp only [Ozon.ozonLoop, hs]
      refine ⟨ih1, by simp [ih2], ?_⟩
      intro q hq
      rcases List.mem_cons.mp hq with hq | hq
      · exact hq ▸ le_trans (netSleep_le a) (by norm_num)
      · exact ih3 q hq
    | status c ra =>
      rw [hs] at ha
      have htr : isTransientStatus c = true := ha
      obtain ⟨ih1, ih2, ih3⟩ := ih (a + 1)
      simp only [Ozon.ozonLoop, hs, if_neg (transient_not_auth c htr),
        if_pos htr]
      refine ⟨ih1, by simp [ih2], ?_⟩
      intro q hq
      rcases List.mem_cons.mp hq with hq | hq
      · exact hq ▸ ozonTransientSleep_le a ra
      · exact ih3 q hq

/-- C5: for every retry budget and every request whose attempts all hit a
transient status (429/500/502/503/504) or a network timeout, each of the
two request engines sleeps once per attempt, never longer than its
per-attempt cap (60 s for WB, 20 s for Ozon), and after the budget is
exhausted returns an absence (`none`) to the caller instead of raising —
the loop catches every exception, so the embedding is total. -/
theorem c5_retry_transient_absence (mr : ℕ) (s1 s2 : ℕ → WireOutcome)
    (h1 : ∀ i, isTransientOutcome (s1 i) = true)
    (h2 : ∀ i, isTransientOutcome (s2 i) = true) :
    (WB.wbMakeRequest s1 mr).1 = none ∧
    (WB.wbMakeRequest s1 mr).2.length = mr ∧
    (∀ q ∈ (WB.wbMakeRequest s1 mr).2, q ≤ 60) ∧
    (Ozon.ozonMakeRequest s2 mr).1 = none ∧
    (Ozon.ozonMakeRequest s2 mr).2.length = mr ∧
    (∀ q ∈ (Ozon.ozonMakeRequest s2 mr).2, q ≤ 20) := by
  obtain ⟨w1, w2, w3⟩ := wbLoop_all_transient s1 h1 mr 1
  obtain ⟨o1, o2, o3⟩ := ozonLoop_all_transient s2 h2 mr 1
  exact ⟨w1, w2, w3, o1, o2, o3⟩

theorem c5_retry_transient_absence_witness :
    (∀ i : ℕ, isTransientOutcome
      ((fun _ : ℕ => WireOutcome.status 503 RetryAfter.absent) i) = true) ∧
    ((WB.wbMakeRequest (fun _ => WireOutcome.status 503 RetryAfter.absent) 3).1
        = none ∧
     (WB.wbMakeRequest (fun _ => WireOutcome.status 503 RetryAfter.absent) 3).2.length
        = 3 ∧
     (∀ q ∈ (WB.wbMakeRequest
        (fun _ => WireOutcome.status 503 RetryAfter.absent) 3).2, q ≤ 60) ∧
     (Ozon.ozonMakeRequest (fun _ => WireOutcome.status 503 RetryAfter.absent) 3).1
        = none ∧
     (Ozon.ozonMakeRequest (fun _ => WireOutcome.status 503 RetryAfter.absent) 3).2.length
        = 3 ∧
     (∀ q ∈ (Ozon.ozonMakeRequest
        (fun _ => WireOutcome.status 503 RetryAfter.absent) 3).2, q ≤ 20)) :=
  ⟨fun _ => rfl,
   c5_retry_transient_absence 3 (fun _ => WireOutcome.status 503 RetryAfter.absent)
     (fun _ => WireOutcome.status 503 RetryAfter.absent)
     (fun _ => rfl) (fun _ => rfl)⟩

/-- Against a server that keeps answering the same non-empty page with the
same cursor, the WB cards loop issues one request per page of budget. -/
theorem cardsLoop_const_count (cards : List ℕ) (cur : ℤ × Str)
    (hc : ¬ (cards = [])) :
    ∀ r i, (WB.cardsLoop (fun _ => WB.CardsResp.page cards (some cur)) i r).2
      = r := by
  intro r
  induction r with
  | zero => intro i; rfl
  | succ n ih =>
    intro i
    simp only [WB.cardsLoop, if_neg hc, ih]

/-- The WB cards loop never issues more requests than its remaining budget. -/
theorem cardsLoop_count_le (s : ℕ → WB.CardsResp) :
    ∀ r i, (WB.cardsLoop s i r).2 ≤ r := by
  intro r
  induction r with
  | zero => intro i; exact le_refl 0
  | succ n ih =>
    intro i
    cases hs : s i with
    | bad => simp [WB.cardsLoop, hs]
    | page cards cur =>
      by_cases hc : cards = []
      · simp [WB.cardsLoop, hs, hc]
      · cases cur with
        | none => simp [WB.cardsLoop, hs, if_neg hc]
        | some c =>
          simp only [WB.cardsLoop, hs, if_neg hc]
          have := ih (i + 1)
          omega

/-- C9 counterexample: the WB card-list pagination does NOT stop when the
returned cursor is unchanged.  Against a server that forever returns the
same one-card page with the same `(nmID, updatedAt)` cursor, the adapter
issues all 200 requests of its page cap instead of stopping at the second
page, where the cursor first repeats. -/
theorem c9_pagination_counterexample :
    (WB.getCardsList
        (fun _ => WB.CardsResp.page [7] (some (1, "t".toList)))).2 = 200 ∧
    ¬ ((WB.getCardsList
        (fun _ => WB.CardsResp.page [7] (some (1, "t".toList)))).2 ≤ 2) := by
  have h := cardsLoop_const_count [7] (1, "t".toList) (by simp) 200 0
  exact ⟨h, by rw [WB.getCardsList, h]; norm_num⟩

/-- C9 (amended): the WB card-list pagination stops when the returned
cursor pair is absent (or the page is empty or unusable) and in any case
issues at most the fixed cap of 200 page requests — an unchanged cursor by
itself does not stop the loop, only the cap bounds it; the Ozon product
listing stops as soon as the `last_id` token is empty or a page returns
fewer than the requested 1000 items. -/
theorem c9_bounded_pagination (script script2 : ℕ → WB.CardsResp)
    (cards : List ℕ) (items : List (Option ℤ)) (lastId : Str)
    (rest : List Ozon.ListResp)
    (h1 : script2 0 = WB.CardsResp.page cards none)
    (h2 : cards ≠ [])
    (h3 : lastId = [] ∨ items.length < 1000) :
    (WB.getCardsList script).2 ≤ 200 ∧
    WB.getCardsList script2 = (cards, 1) ∧
    Ozon.stockIdLoop (Ozon.ListResp.page items lastId :: rest) =
      (items.filterMap id, 1) := by
  refine ⟨cardsLoop_count_le script 200 0, ?_, ?_⟩
  · have h200 : (200 : ℕ) = 199 + 1 := rfl
    rw [WB.getCardsList, h200]
    simp only [WB.cardsLoop, h1, if_neg h2]
  · simp only [Ozon.stockIdLoop, if_pos h3]

theorem c9_bounded_pagination_witness :
    (((fun _ : ℕ => WB.CardsResp.page [5] none) 0 =
        WB.CardsResp.page [5] none) ∧
     ([5] : List ℕ) ≠ [] ∧
     (([] : Str) = [] ∨ ([] : List (Option ℤ)).length < 1000)) ∧
    ((WB.getCardsList (fun _ => WB.CardsResp.bad)).2 ≤ 200 ∧
     WB.getCardsList (fun _ => WB.CardsResp.page [5] none) = ([5], 1) ∧
     Ozon.stockIdLoop [Ozon.ListResp.page [] []] =
       (([] : List (Option ℤ)).filterMap id, 1)) :=
  ⟨⟨rfl, by decide, Or.inl rfl⟩,
   c9_bounded_pagination (fun _ => WB.CardsResp.bad)
     (fun _ => WB.CardsResp.page [5] none) [5] [] [] []
     rfl (by decide) (Or.inl rfl)⟩

/-- Closed form of the daily-report accumulation loop. -/
theorem dailyFold_spec (store : Str → Option Reports.StoredCost)
    (recs : List Reports.SaleRec) :
    ∀ init : Reports.DailyAcc,
      recs.foldl (Reports.dailyStep store) init =
        ⟨init.revenue + (recs.map (fun r => r.price)).sum,
         init.cost + (recs.map
           (fun r => (Reports.effCost store (Reports.recKey r)).cost)).sum,
         init.tax + (recs.map
           (fun r => r.price * (Reports.effCost store (Reports.recKey r)).tax)).sum,
         init.extra + (recs.map
           (fun r => (Reports.effCost store (Reports.recKey r)).extra)).sum,
         init.items + recs.length⟩ := by
  induction recs with
  | nil => intro init; cases init; simp
  | cons a l ih =>
    intro init
    simp only [List.foldl_cons, ih, Reports.dailyStep, List.map_cons,
      List.sum_cons, List.length_cons, Reports.DailyAcc.mk.injEq]
    refine ⟨by ring, by ring, by ring, by ring, by omega⟩

/-- Concrete store for the C6 counterexample: the product `ABC` is stored
with `cost_price 400`, `tax_rate 0` and `extra_costs 50`. -/
def c6zeroStore : Str → Option Reports.StoredCost :=
  fun a => if a = "ABC".toList then some ⟨400, 0, 50⟩ else none

/-- Concrete store for the C6 scenario: the product `ABC` is stored with
`cost_price 400`, `tax_rate 0.06` and `extra_costs 50`. -/
def c6store : Str → Option Reports.StoredCost :=
  fun a => if a = "ABC".toList then some ⟨400, 6/100, 50⟩ else none

theorem c6_recKey_eval :
    Reports.recKey ⟨"ABC".toList, 1000⟩ = "ABC".toList := by
  decide

theorem c6_effCost_zero_eval :
    Reports.effCost c6zeroStore "ABC".toList = ⟨400, 6/100, 50⟩ := by
  simp only [Reports.effCost, Reports.costsDict, c6zeroStore, if_pos rfl,
    Option.map_some']
  norm_num

theorem c6_effCost_eval :
    Reports.effCost c6store "ABC".toList = ⟨400, 6/100, 50⟩ := by
  simp only [Reports.effCost, Reports.costsDict, c6store, if_pos rfl,
    Option.map_some']
  norm_num

/-- C6 counterexample: with a stored product whose `tax_rate` is 0 the
report engine does not compute `tax = Σ price * tax_rate`: on a single sale
of 1000 it accumulates `1000 * 0.06 = 60` (the `or 0.06` fallback replaces
a stored rate of 0), not `1000 * 0 = 0`. -/
theorem c6_per_record_counterexample :
    (Reports.dailyAggregate [⟨"ABC".toList, 1000⟩] c6zeroStore).tax = 60 ∧
    ¬ ((Reports.dailyAggregate [⟨"ABC".toList, 1000⟩] c6zeroStore).tax
        = 1000 * 0) := by
  have htax : (Reports.dailyAggregate [⟨"ABC".toList, 1000⟩] c6zeroStore).tax
      = 60 := by
    show (List.foldl (Reports.dailyStep c6zeroStore) ⟨0, 0, 0, 0, 0⟩
      [⟨"ABC".toList, 1000⟩]).tax = 60
    rw [dailyFold_spec]
    simp only [List.map_cons, List.map_nil, List.sum_cons, List.sum_nil,
      c6_recKey_eval, c6_effCost_zero_eval]
    norm_num
  exact ⟨htax, by rw [htax]; norm_num⟩

/-- C6 (amended): per-record aggregation looks each record up by normalized
article with defaults `cost = 0, tax = 0.06, extra = 0` when absent — and a
stored `tax_rate` of 0 is likewise replaced by the default 0.06; the
aggregates satisfy `revenue = Σ price`, `cost = Σ cost_price`,
`tax = Σ price * effective_tax_rate`, `extra = Σ extra_costs`,
`net_profit = revenue - cost - tax - extra`, and the report exposes
`roi = net_profit / cost * 100` (margin is computed by the per-record profit
calculator as `net_profit / price * 100`); the scenario of a 1000-ruble sale
of `ABC` with stored `(400, 0.06, 50)` yields revenue 1000, cost 400,
tax 60, extra 50, net 490 and margin 49.0. -/
theorem c6_per_record_aggregation (recs : List Reports.SaleRec)
    (store : Str → Option Reports.StoredCost) :
    (Reports.dailyAggregate recs store).revenue =
      (recs.map (fun r => r.price)).sum ∧
    (Reports.dailyAggregate recs store).cost =
      (recs.map (fun r => (Reports.effCost store (Reports.recKey r)).cost)).sum ∧
    (Reports.dailyAggregate recs store).tax =
      (recs.map
        (fun r => r.price * (Reports.effCost store (Reports.recKey r)).tax)).sum ∧
    (Reports.dailyAggregate recs store).extra =
      (recs.map (fun r => (Reports.effCost store (Reports.recKey r)).extra)).sum ∧
    (Reports.dailyAggregate recs store).net =
      (Reports.dailyAggregate recs store).revenue -
      (Reports.dailyAggregate recs store).cost -
      (Reports.dailyAggregate recs store).tax -
      (Reports.dailyAggregate recs store).extra ∧
    Reports.dailyAggregate [⟨"ABC".toList, 1000⟩] c6store =
      ⟨1000, 400, 60, 50, 1, 490, 245/2⟩ ∧
    (UnitEcon.calculateProfit 1000 400 (6/100) ⟨none, none, none, none⟩
      50).net_profit = 490 ∧
    (UnitEcon.calculateProfit 1000 400 (6/100) ⟨none, none, none, none⟩
      50).margin = 49 := by
  have hfold := dailyFold_spec store recs ⟨0, 0, 0, 0, 0⟩
  have hscen : Reports.dailyAggregate [⟨"ABC".toList, 1000⟩] c6store =
      ⟨1000, 400, 60, 50, 1, 490, 245/2⟩ := by
    unfold Reports.dailyAggregate
    rw [dailyFold_spec]
    simp only [List.map_cons, List.map_nil, List.sum_cons, List.sum_nil,
      List.length_cons, List.length_nil, c6_recKey_eval, c6_effCost_eval,
      Reports.DailyAgg.mk.injEq]
    norm_num
  have hprofit : UnitEcon.calculateProfit 1000 400 (6/100)
      ⟨none, none, none, none⟩ 50 = ⟨490, 245/2, 49, 60, 0, 50⟩ := by
    unfold UnitEcon.calculateProfit
    simp only [Option.getD_none, UnitEcon.UnitResult.mk.injEq]
    norm_num [pyRound, roundHalfEven]
  refine ⟨?_, ?_, ?_, ?_, ?_, hscen, by rw [hprofit], by rw [hprofit]⟩
  · show (recs.foldl (Reports.dailyStep store) ⟨0, 0, 0, 0, 0⟩).revenue = _
    rw [hfold]
    simp
  · show (recs.foldl (Reports.dailyStep store) ⟨0, 0, 0, 0, 0⟩).cost = _
    rw [hfold]
    simp
  · show (recs.foldl (Reports.dailyStep store) ⟨0, 0, 0, 0, 0⟩).tax = _
    rw [hfold]
    simp
  · show (recs.foldl (Reports.dailyStep store) ⟨0, 0, 0, 0, 0⟩).extra = _
    rw [hfold]
    simp
  · rfl

theorem sum_map_mul_right_rat {α : Type} (l : List α) (f : α → ℚ) (r : ℚ) :
    (l.map (fun x => f x * r)).sum = (l.map f).sum * r := by
  induction l with
  | nil => simp
  | cons a t ih => simp [ih, add_mul]

/-- C7: detailed-report aggregation.  For every list of WB detailed-report
rows, revenue is the plain sum of the payout field over all rows (no
commission re-subtracted), delivery sums `delivery_rub`, penalties sum the
optional `penalty` field with absent cells contributing 0, tax is the
user's rate applied to the summed gross `retail_amount`, cost sums the
mapped `cost_price` over sale-type rows only (returns excluded),
`net = revenue - cost - tax - penalties`, margin is `net/revenue*100`
guarded to 0 for non-positive revenue, and on a non-empty input the entry
point returns the aggregate rounded to 2 decimals. -/
theorem c7_detailed_report (rows : List FinProc.WbFinRow)
    (costMap : Str → Option ℚ) (rate : ℚ) (h : rows ≠ []) :
    (FinProc.wbWeeklyAgg rows costMap rate).revenue =
      (rows.map (fun r => r.ppvz_for_pay)).sum ∧
    (FinProc.wbWeeklyAgg rows costMap rate).delivery =
      (rows.map (fun r => r.delivery_rub)).sum ∧
    (FinProc.wbWeeklyAgg rows costMap rate).penalties =
      (rows.map (fun r => r.penalty.getD 0)).sum ∧
    (FinProc.wbWeeklyAgg rows costMap rate).tax =
      (rows.map (fun r => r.retail_amount * rate)).sum ∧
    (FinProc.wbWeeklyAgg rows costMap rate).cost =
      ((rows.filter (fun r => r.doc_type_name = FinProc.saleDoc)).map
        (fun r => (costMap r.sa_name).getD 0)).sum ∧
    (FinProc.wbWeeklyAgg rows costMap rate).net =
      (FinProc.wbWeeklyAgg rows costMap rate).revenue -
      (FinProc.wbWeeklyAgg rows costMap rate).cost -
      (FinProc.wbWeeklyAgg rows costMap rate).tax -
      (FinProc.wbWeeklyAgg rows costMap rate).penalties ∧
    (FinProc.wbWeeklyAgg rows costMap rate).margin =
      (if (FinProc.wbWeeklyAgg rows costMap rate).revenue > 0
       then (FinProc.wbWeeklyAgg rows costMap rate).net /
         (FinProc.wbWeeklyAgg rows costMap rate).revenue * 100
       else 0) ∧
    FinProc.processWbWeekly rows costMap rate = some
      ⟨(FinProc.wbWeeklyAgg rows costMap rate).sales_count,
       (FinProc.wbWeeklyAgg rows costMap rate).returns_count,
       pyRound 2 (FinProc.wbWeeklyAgg rows costMap rate).revenue,
       pyRound 2 (FinProc.wbWeeklyAgg rows costMap rate).delivery,
       pyRound 2 (FinProc.wbWeeklyAgg rows costMap rate).tax,
       pyRound 2 (FinProc.wbWeeklyAgg rows costMap rate).cost,
       pyRound 2 (FinProc.wbWeeklyAgg rows costMap rate).net,
       pyRound 2 (FinProc.wbWeeklyAgg rows costMap rate).margin⟩ := by
  refine ⟨colSum_eq_sum_map _ rows, colSum_eq_sum_map _ rows,
    colSum_eq_sum_map _ rows, ?_, colSum_eq_sum_map _ _, rfl, rfl, ?_⟩
  · show colSum (fun r => r.retail_amount) rows * rate = _
    rw [colSum_eq_sum_map, sum_map_mul_right_rat]
  · simp only [FinProc.processWbWeekly, if_neg h]

/-- A concrete sale row for the C7 witness. -/
def c7row : FinProc.WbFinRow :=
  ⟨"ABC".toList, FinProc.saleDoc, 800, 60, 1000, none⟩

theorem c7_detailed_report_witness :
    ([c7row] : List FinProc.WbFinRow) ≠ [] ∧
    ((FinProc.wbWeeklyAgg [c7row] (fun _ => none) 0).revenue =
      ([c7row].map (fun r => r.ppvz_for_pay)).sum ∧
     (FinProc.wbWeeklyAgg [c7row] (fun _ => none) 0).delivery =
      ([c7row].map (fun r => r.delivery_rub)).sum ∧
     (FinProc.wbWeeklyAgg [c7row] (fun _ => none) 0).penalties =
      ([c7row].map (fun r => r.penalty.getD 0)).sum ∧
     (FinProc.wbWeeklyAgg [c7row] (fun _ => none) 0).tax =
      ([c7row].map (fun r => r.retail_amount * 0)).sum ∧
     (FinProc.wbWeeklyAgg [c7row] (fun _ => none) 0).cost =
      (([c7row].filter (fun r => r.doc_type_name = FinProc.saleDoc)).map
        (fun r => ((fun _ : Str => (none : Option ℚ)) r.sa_name).getD 0)).sum ∧
     (FinProc.wbWeeklyAgg [c7row] (fun _ => none) 0).net =
      (FinProc.wbWeeklyAgg [c7row] (fun _ => none) 0).revenue -
      (FinProc.wbWeeklyAgg [c7row] (fun _ => none) 0).cost -
      (FinProc.wbWeeklyAgg [c7row] (fun _ => none) 0).tax -
      (FinProc.wbWeeklyAgg [c7row] (fun _ => none) 0).penalties ∧
     (FinProc.wbWeeklyAgg [c7row] (fun _ => none) 0).margin =
      (if (FinProc.wbWeeklyAgg [c7row] (fun _ => none) 0).revenue > 0
       then (FinProc.wbWeeklyAgg [c7row] (fun _ => none) 0).net /
         (FinProc.wbWeeklyAgg [c7row] (fun _ => none) 0).revenue * 100
       else 0) ∧
     FinProc.processWbWeekly [c7row] (fun _ => none) 0 = some
      ⟨(FinProc.wbWeeklyAgg [c7row] (fun _ => none) 0).sales_count,
       (FinProc.wbWeeklyAgg [c7row] (fun _ => none) 0).returns_count,
       pyRound 2 (FinProc.wbWeeklyAgg [c7row] (fun _ => none) 0).revenue,
       pyRound 2 (FinProc.wbWeeklyAgg [c7row] (fun _ => none) 0).delivery,
       pyRound 2 (FinProc.wbWeeklyAgg [c7row] (fun _ => none) 0).tax,
       pyRound 2 (FinProc.wbWeeklyAgg [c7row] (fun _ => none) 0).cost,
       pyRound 2 (FinProc.wbWeeklyAgg [c7row] (fun _ => none) 0).net,
       pyRound 2 (FinProc.wbWeeklyAgg [c7row] (fun _ => none) 0).margin⟩) :=
  ⟨by simp, c7_detailed_report [c7row] (fun _ => none) 0 (by simp)⟩

/-- C8: division-safety of the profit computations.  The daily-report
aggregation on an empty record set yields all-zero aggregates (roi included)
with no division performed; the detailed-report entry point returns an
absence on an empty input without dividing; and in every mode the guarded
ratios are 0 whenever their denominator is 0: report roi when accumulated
cost is 0, detailed-report margin when revenue is 0, and the per-record
calculator's margin and roi when price resp. cost price are 0. -/
theorem c8_division_safety (recs : List Reports.SaleRec)
    (store store0 : Str → Option Reports.StoredCost)
    (rows : List FinProc.WbFinRow) (cm cm0 : Str → Option ℚ) (rate rate0 : ℚ)
    (price cost tr extra : ℚ) (fees : UnitEcon.Fees)
    (hcost : (Reports.dailyAggregate recs store).cost = 0)
    (hrev : (FinProc.wbWeeklyAgg rows cm rate).revenue = 0)
    (hp : price = 0) (hcp : cost = 0) :
    Reports.dailyAggregate [] store0 = ⟨0, 0, 0, 0, 0, 0, 0⟩ ∧
    FinProc.processWbWeekly [] cm0 rate0 = none ∧
    (Reports.dailyAggregate recs store).roi = 0 ∧
    (FinProc.wbWeeklyAgg rows cm rate).margin = 0 ∧
    (UnitEcon.calculateProfit price cost tr fees extra).margin = 0 ∧
    (UnitEcon.calculateProfit price cost tr fees extra).roi = 0 := by
  refine ⟨?_, rfl, ?_, ?_, ?_, ?_⟩
  · simp only [Reports.dailyAggregate, List.foldl_nil,
      Reports.DailyAgg.mk.injEq]
    norm_num
  · have h := hcost
    simp only [Reports.dailyAggregate] at h ⊢
    rw [h]
    norm_num
  · have h := hrev
    simp only [FinProc.wbWeeklyAgg] at h ⊢
    rw [h]
    norm_num
  · subst hp
    simp only [UnitEcon.calculateProfit]
    norm_num [pyRound, roundHalfEven]
  · subst hcp
    simp only [UnitEcon.calculateProfit]
    norm_num [pyRound, roundHalfEven]

theorem c8_division_safety_witness :
    ((Reports.dailyAggregate [] (fun _ => none)).cost = 0 ∧
     (FinProc.wbWeeklyAgg [] (fun _ => none) 0).revenue = 0 ∧
     (0 : ℚ) = 0 ∧ (0 : ℚ) = 0) ∧
    (Reports.dailyAggregate [] (fun _ => none) = ⟨0, 0, 0, 0, 0, 0, 0⟩ ∧
     FinProc.processWbWeekly [] (fun _ => none) 0 = none ∧
     (Reports.dailyAggregate [] (fun _ => none)).roi = 0 ∧
     (FinProc.wbWeeklyAgg [] (fun _ => none) 0).margin = 0 ∧
     (UnitEcon.calculateProfit 0 0 0 ⟨none, none, none, none⟩ 0).margin = 0 ∧
     (UnitEcon.calculateProfit 0 0 0 ⟨none, none, none, none⟩ 0).roi = 0) :=
  ⟨⟨by norm_num [Reports.dailyAggregate],
     by norm_num [FinProc.wbWeeklyAgg, colSum], rfl, rfl⟩,
   c8_division_safety [] (fun _ => none) (fun _ => none) [] (fun _ => none)
     (fun _ => none) 0 0 0 0 0 0 ⟨none, none, none, none⟩
     (by norm_num [Reports.dailyAggregate])
     (by norm_num [FinProc.wbWeeklyAgg, colSum]) rfl rfl⟩

/-- C10 counterexample: the claim that the adapter's normalization,
`db_functions._norm_article` and `reports._norm_article` agree on every
input fails: on the input `"abc"` the WB adapter (which never uppercases)
produces `"abc"` while the persistence layer produces `"ABC"`. -/
theorem c10_norm_article_counterexample :
    ¬ (WB.wbNormArticle "abc".toList = DB.normArticle "abc".toList) := by
  decide

/-- C10 (amended): the WB adapter omits uppercasing, the persistence layer
omits the 128-character cap, and the report engine maps empty input to the
placeholder; the three normalizations therefore agree exactly on inputs
that are already trimmed, non-empty, at most 128 characters long and fixed
by uppercasing (such as the numeric WB `nmID` / digit articles actually
used as join keys), where each returns the input itself. -/
theorem c10_norm_article_agreement (s : Str)
    (h1 : pyStrip s = s) (h2 : s ≠ []) (h3 : s.length ≤ 128)
    (h4 : pyUpper s = s) :
    WB.wbNormArticle s = s ∧ DB.normArticle s = s ∧
      Reports.repNormArticle s = s := by
  have hsafe : ∀ d : Str, safeStr (some s) 128 d = s := by
    intro d
    simp only [safeStr, h1, if_neg h2]
    exact List.take_of_length_le h3
  refine ⟨?_, ?_, ?_⟩
  · simp [WB.wbNormArticle, hsafe, h1]
  · simp [DB.normArticle, if_neg h2, h1, h4]
  · simp [Reports.repNormArticle, hsafe, h1, h4]

theorem c10_norm_article_agreement_witness :
    (pyStrip "123".toList = "123".toList ∧ "123".toList ≠ [] ∧
      ("123".toList : Str).length ≤ 128 ∧ pyUpper "123".toList = "123".toList) ∧
    (WB.wbNormArticle "123".toList = "123".toList ∧
      DB.normArticle "123".toList = "123".toList ∧
      Reports.repNormArticle "123".toList = "123".toList) :=
  ⟨⟨by decide, by decide, by decide, by decide⟩,
    c10_norm_article_agreement "123".toList (by decide) (by decide)
      (by decide) (by decide)⟩
